import Mathlib

set_option linter.unusedVariables false
set_option linter.unnecessarySeqFocus false

/-!
Shallow embedding of the input-resolution and caching layer of the typster
repository: the fingerprint-gated SlotCell cache, the FileSlot source and
byte cells, on-disk path resolution, UTF-8 decoding, the captured-once
today clock, and the lazily decoded font slots (src/world.rs and
src/fonts.rs).
-/

/-- Error type mirroring the typst FileError variants reachable from
src/world.rs. The io variant models an OS-level failure other than a
missing file, wrapped with the offending path for diagnostics
(spec section 7: Io carries the path; the concrete wrapping lives in the
external typst crate). -/
inductive FileError where
  | notFound (path : List String)
  | accessDenied
  | isDirectory
  | invalidUtf8
  | package (err : String)
  | io (path : List String)
deriving DecidableEq, Repr

deriving instance DecidableEq for Except

/-- Mirrors SlotCell from src/world.rs lines 218 to 225: the processed
data (last value or last error), the fingerprint of the last load, and
the accessed-this-pass flag. The Rust fingerprint is a u128; only
equality of fingerprints is ever consulted, so it is embedded as a Nat
produced by a hash function that the theorems quantify over. -/
structure SlotCell (T : Type) where
  data : Option (Except FileError T)
  fingerprint : Nat
  accessed : Bool
deriving DecidableEq, Repr

/-- Result of one SlotCell.get_or_init call in the embedding: the
returned value, the cell state after the call, how many filesystem loads
ran (0 or 1), and how many re-derivations of the cached value ran
(0 or 1). The two counters make the I/O behaviour of the Rust code an
explicit observable. -/
structure GetResult (T : Type) where
  value : Except FileError T
  cell : SlotCell T
  loads : Nat
  derives : Nat
deriving DecidableEq, Repr

/-- Mirrors SlotCell::new (src/world.rs lines 229 to 231): empty data,
zero fingerprint, flag clear. -/
def SlotCell.new {T : Type} : SlotCell T := ⟨none, 0, false⟩

/-- Tail of SlotCell::get_or_init (src/world.rs lines 257 to 261): take
the previous successful value, derive the new value from the load result,
store it. The Rust take followed by the assignment nets to storing the
new value. -/
def SlotCell.recompute {T : Type} (c : SlotCell T)
    (result : Except FileError (List Nat))
    (f : List Nat → Option T → Except FileError T) : GetResult T :=
  ⟨result.bind fun d => f d (c.data.bind Except.toOption),
   { c with data := some (result.bind fun d => f d (c.data.bind Except.toOption)) },
   1, 1⟩

/-- Middle of SlotCell::get_or_init (src/world.rs lines 246 to 261),
entered when the accessed short-circuit did not fire: load and hash the
file, store the new fingerprint, and if the old fingerprint equals the
new one and a cached value exists, yield it; otherwise re-derive. -/
def SlotCell.load_and_update {T : Type} (c : SlotCell T)
    (hash : Except FileError (List Nat) → Nat)
    (load : Except FileError (List Nat))
    (f : List Nat → Option T → Except FileError T) : GetResult T :=
  if c.fingerprint = hash load then
    match c.data with
    | some d => ⟨d, { c with fingerprint := hash load }, 1, 0⟩
    | none => SlotCell.recompute { c with fingerprint := hash load } load f
  else
    SlotCell.recompute { c with fingerprint := hash load } load f

/-- Mirrors SlotCell::get_or_init (src/world.rs lines 234 to 262). The
Rust mem::replace sets the accessed flag before anything else; if it was
already set and data is cached, the cached result is returned with no
load. The load closure is embedded as the value it would return on this
call (the filesystem state is external input), and the hash function
stands for typst_utils::hash128 over the whole load result. -/
def SlotCell.get_or_init {T : Type} (c : SlotCell T)
    (hash : Except FileError (List Nat) → Nat)
    (load : Except FileError (List Nat))
    (f : List Nat → Option T → Except FileError T) : GetResult T :=
  if c.accessed then
    match c.data with
    | some d => ⟨d, { c with accessed := true }, 0, 0⟩
    | none => SlotCell.load_and_update { c with accessed := true } hash load f
  else
    SlotCell.load_and_update { c with accessed := true } hash load f

/-- After any get_or_init call the cell carries the returned value as its
cached data and the accessed flag is set. -/
theorem SlotCell.get_or_init_post {T : Type} (c : SlotCell T)
    (hash : Except FileError (List Nat) → Nat)
    (load : Except FileError (List Nat))
    (f : List Nat → Option T → Except FileError T) :
    (c.get_or_init hash load f).cell.data = some (c.get_or_init hash load f).value ∧
    (c.get_or_init hash load f).cell.accessed = true := by
  unfold SlotCell.get_or_init SlotCell.load_and_update SlotCell.recompute
  by_cases hacc : c.accessed <;> simp [hacc] <;>
    rcases hdata : c.data with _ | d <;> simp [hdata] <;>
      by_cases hfp : c.fingerprint = hash load <;> simp [hfp]

/-- A cell whose accessed flag is set and whose data is cached returns
the cached value with no load, no re-derivation, and no state change. -/
theorem SlotCell.get_or_init_cached {T : Type} (c : SlotCell T)
    (hash : Except FileError (List Nat) → Nat)
    (load : Except FileError (List Nat))
    (f : List Nat → Option T → Except FileError T)
    (v : Except FileError T)
    (hacc : c.accessed = true) (hdata : c.data = some v) :
    c.get_or_init hash load f = ⟨v, c, 0, 0⟩ := by
  cases c with
  | mk data fp acc =>
    cases hacc
    simp only [SlotCell.get_or_init, if_pos rfl] at *
    simp [hdata]

/-- One request against a cell within a pass: the load result the
filesystem would deliver on this call, and the derivation closure the
caller passes (the source parse or the byte wrap). -/
structure LoadSpec (T : Type) where
  load : Except FileError (List Nat)
  f : List Nat → Option T → Except FileError T

/-- Aggregate outcome of a sequence of get_or_init calls on one cell:
final cell state, the values returned in order, and the total numbers of
loads and re-derivations. -/
structure PassResult (T : Type) where
  cell : SlotCell T
  values : List (Except FileError T)
  loads : Nat
  derives : Nat
deriving Repr

/-- Runs a sequence of get_or_init calls against one cell, modelling
repeated resolution of one file identifier within a compilation pass. -/
def SlotCell.runPass {T : Type} (hash : Except FileError (List Nat) → Nat) :
    SlotCell T → List (LoadSpec T) → PassResult T
  | c, [] => ⟨c, [], 0, 0⟩
  | c, s :: rest =>
    ⟨(SlotCell.runPass hash (c.get_or_init hash s.load s.f).cell rest).cell,
     (c.get_or_init hash s.load s.f).value ::
       (SlotCell.runPass hash (c.get_or_init hash s.load s.f).cell rest).values,
     (c.get_or_init hash s.load s.f).loads +
       (SlotCell.runPass hash (c.get_or_init hash s.load s.f).cell rest).loads,
     (c.get_or_init hash s.load s.f).derives +
       (SlotCell.runPass hash (c.get_or_init hash s.load s.f).cell rest).derives⟩

/-- A cell in the post-access steady state (flag set, data cached)
absorbs any further sequence of calls: every call returns the cached
value, the state never changes, and no load or re-derivation runs. -/
theorem SlotCell.runPass_steady {T : Type}
    (hash : Except FileError (List Nat) → Nat) (c : SlotCell T)
    (v : Except FileError T) (specs : List (LoadSpec T))
    (hacc : c.accessed = true) (hdata : c.data = some v) :
    SlotCell.runPass hash c specs = ⟨c, List.replicate specs.length v, 0, 0⟩ := by
  induction specs with
  | nil => simp [SlotCell.runPass]
  | cons s rest ih =>
    simp only [SlotCell.runPass]
    rw [SlotCell.get_or_init_cached c hash s.load s.f v hacc hdata]
    simp [ih, List.replicate]

/-- A first-in-pass access (flag clear) performs exactly one load and at
most one re-derivation. -/
theorem SlotCell.get_or_init_first {T : Type} (c : SlotCell T)
    (hash : Except FileError (List Nat) → Nat)
    (load : Except FileError (List Nat))
    (f : List Nat → Option T → Except FileError T)
    (hacc : c.accessed = false) :
    (c.get_or_init hash load f).loads = 1 ∧
    (c.get_or_init hash load f).derives ≤ 1 := by
  unfold SlotCell.get_or_init SlotCell.load_and_update SlotCell.recompute
  simp only [hacc, if_false, Bool.false_eq_true]
  by_cases hfp : c.fingerprint = hash load <;>
    rcases hdata : c.data with _ | d <;> simp [hfp, hdata]

/-- Concrete stand-in for typst_utils::hash128, used only to instantiate
the theorems at concrete inputs: a 128-bit polynomial hash over the load
result. The claim theorems quantify over the hash function itself. -/
def hashModel : Except FileError (List Nat) → Nat
  | .ok l => (l.foldl (fun a b => a * 257 + b + 1) 2) % 2 ^ 128
  | .error _ => 1

/-- C1: on an access that actually re-reads the file (the pass flag is
clear), if the hash of the read result equals the stored fingerprint and
a cached value or cached error exists, it is returned unchanged; on a
first-ever read (no cached data) or when the hash differs, the value is
re-derived from the newly read bytes and the new fingerprint is stored. -/
theorem spec_C1 {T : Type} (c : SlotCell T)
    (hash : Except FileError (List Nat) → Nat)
    (load : Except FileError (List Nat))
    (f : List Nat → Option T → Except FileError T)
    (hacc : c.accessed = false) :
    (∀ d, c.data = some d → hash load = c.fingerprint →
        c.get_or_init hash load f =
          ⟨d, { c with accessed := true, fingerprint := hash load }, 1, 0⟩) ∧
    (c.data = none →
        c.get_or_init hash load f =
          ⟨load.bind fun b => f b none,
           ⟨some (load.bind fun b => f b none), hash load, true⟩, 1, 1⟩) ∧
    (hash load ≠ c.fingerprint →
        c.get_or_init hash load f =
          ⟨load.bind fun b => f b (c.data.bind Except.toOption),
           ⟨some (load.bind fun b => f b (c.data.bind Except.toOption)),
            hash load, true⟩, 1, 1⟩) := by
  unfold SlotCell.get_or_init SlotCell.load_and_update SlotCell.recompute
  simp only [hacc, if_false, Bool.false_eq_true]
  refine ⟨?_, ?_, ?_⟩
  · intro d hd hfp
    simp [hd, hfp.symm]
  · intro hd
    by_cases hfp : c.fingerprint = hash load <;> simp [hd, hfp]
  · intro hfp
    have hfp' : ¬ c.fingerprint = hash load := fun h => hfp h.symm
    simp [hfp']

/-- Witness for C1 at concrete inputs: a cell caching the bytes [5] with
their fingerprint returns the cached value unchanged when the re-read
bytes are again [5], and re-derives when they are [6]. -/
theorem spec_C1_witness :
    SlotCell.get_or_init ⟨some (.ok [5]), hashModel (.ok [5]), false⟩
        hashModel (.ok [5]) (fun d _ => .ok d) =
      ⟨.ok [5], ⟨some (.ok [5]), hashModel (.ok [5]), true⟩, 1, 0⟩ ∧
    SlotCell.get_or_init ⟨some (.ok [5]), hashModel (.ok [5]), false⟩
        hashModel (.ok [6]) (fun d _ => .ok d) =
      ⟨.ok [6], ⟨some (.ok [6]), hashModel (.ok [6]), true⟩, 1, 1⟩ := by
  constructor
  · exact (spec_C1 ⟨some (.ok [5]), hashModel (.ok [5]), false⟩ hashModel
      (.ok [5]) (fun d _ => .ok d) rfl).1 (.ok [5]) rfl rfl
  · have hne : hashModel (Except.ok [6]) ≠ hashModel (Except.ok [5]) := by decide
    exact (spec_C1 ⟨some (.ok [5]), hashModel (.ok [5]), false⟩ hashModel
      (.ok [6]) (fun d _ => .ok d) rfl).2.2 hne

/-- C2: starting from a pass-start cell (flag clear), a nonempty sequence
of accesses performs exactly one load in total and at most one
re-derivation, and every access returns the identical value of the first
one, with the cell state frozen after the first access. -/
theorem spec_C2 {T : Type} (hash : Except FileError (List Nat) → Nat)
    (c : SlotCell T) (s : LoadSpec T) (rest : List (LoadSpec T))
    (hacc : c.accessed = false) :
    SlotCell.runPass hash c (s :: rest) =
      ⟨(c.get_or_init hash s.load s.f).cell,
       List.replicate (rest.length + 1) (c.get_or_init hash s.load s.f).value,
       1, (c.get_or_init hash s.load s.f).derives⟩ ∧
    (c.get_or_init hash s.load s.f).derives ≤ 1 := by
  have hpost := SlotCell.get_or_init_post c hash s.load s.f
  have hfirst := SlotCell.get_or_init_first c hash s.load s.f hacc
  refine ⟨?_, hfirst.2⟩
  simp only [SlotCell.runPass]
  rw [SlotCell.runPass_steady hash (c.get_or_init hash s.load s.f).cell
    (c.get_or_init hash s.load s.f).value rest hpost.2 hpost.1]
  simp [hfirst.1, List.replicate]

/-- Witness for C2 at concrete inputs: a fresh cell accessed twice in one
pass loads once, derives once, and returns identical values. -/
theorem spec_C2_witness :
    SlotCell.runPass hashModel (SlotCell.new : SlotCell (List Nat))
      [⟨.ok [7], fun d _ => .ok d⟩, ⟨.ok [8], fun d _ => .ok d⟩] =
      ⟨⟨some (.ok [7]), hashModel (.ok [7]), true⟩, [.ok [7], .ok [7]], 1, 1⟩ := by
  have h := (spec_C2 hashModel (SlotCell.new : SlotCell (List Nat))
    ⟨.ok [7], fun d _ => .ok d⟩ [⟨.ok [8], fun d _ => .ok d⟩] rfl).1
  simpa using h

/-- C3 counterexample: the code has no reset of the accessed-this-pass
flag, so a slot cell retained across a pass boundary serves the first
pass value even though the bytes changed to [2]: the second call returns
the stale .ok [1] and performs zero filesystem loads. -/
theorem spec_C3_counterexample :
    ((SlotCell.new.get_or_init hashModel (.ok [1]) fun d _ => .ok d).cell.get_or_init
        hashModel (.ok [2]) fun d _ => .ok d).value = .ok [1] ∧
    ((SlotCell.new.get_or_init hashModel (.ok [1]) fun d _ => .ok d).cell.get_or_init
        hashModel (.ok [2]) fun d _ => .ok d).loads = 0 := by
  decide

/-- C3 amended: every cell of a freshly constructed SystemWorld (which is
what each compilation pass builds, since compile constructs a new world
per call) starts with the flag clear and no data, so its first access
loads once and derives its value from the newly read bytes. -/
theorem spec_C3_amended {T : Type} (hash : Except FileError (List Nat) → Nat)
    (load : Except FileError (List Nat))
    (f : List Nat → Option T → Except FileError T) :
    SlotCell.new.get_or_init hash load f =
      ⟨load.bind fun d => f d none,
       ⟨some (load.bind fun d => f d none), hash load, true⟩, 1, 1⟩ := by
  unfold SlotCell.new SlotCell.get_or_init SlotCell.load_and_update SlotCell.recompute
  by_cases hfp : (0 : Nat) = hash load <;> simp [hfp]

/-- Component of a virtual path, mirroring the std path components that
the resolution routine inspects: a normal name, a parent-directory step,
or a current-directory step (root and drive markers are skipped by the
routine and omitted here). -/
inductive Component where
  | normal (s : String)
  | parentDir
  | curDir
deriving DecidableEq, Repr

/-- Loop of the virtual-path resolution. Modelled from the spec: the
virtual path is joined component by component onto the root, and a
parent-directory step taken at the root itself (empty stack) escapes the
root and is rejected with none. The stack holds the names pushed so far
in reverse. The concrete routine is VirtualPath::resolve of the external
typst crate, invoked at src/world.rs line 283. -/
def resolveGo (root : List String) : List String → List Component → Option (List String)
  | stack, [] => some (root ++ stack.reverse)
  | stack, Component.curDir :: rest => resolveGo root stack rest
  | stack, Component.normal s :: rest => resolveGo root (s :: stack) rest
  | [], Component.parentDir :: _ => none
  | _ :: stack, Component.parentDir :: rest => resolveGo root stack rest

/-- Modelled from the spec: joining a virtual path onto a root yields the
joined on-disk path, or none when the join would escape the root via
parent-directory traversal; symlink escapes are outside this check. -/
def VirtualPath.resolve (root : List String) (vpath : List Component) :
    Option (List String) :=
  resolveGo root [] vpath

/-- Structural characterisation of a virtual path escaping its root: at
some point the parent-directory steps outnumber the normal components
entered so far. The depth argument counts the currently entered normal
components. -/
def escapes : Nat → List Component → Bool
  | _, [] => false
  | d, Component.curDir :: rest => escapes d rest
  | d, Component.normal _ :: rest => escapes (d + 1) rest
  | 0, Component.parentDir :: _ => true
  | d + 1, Component.parentDir :: rest => escapes d rest

/-- Resolution fails exactly on the paths that escape the root. -/
theorem resolveGo_none_iff (root : List String) :
    ∀ (vpath : List Component) (stack : List String),
      resolveGo root stack vpath = none ↔ escapes stack.length vpath = true := by
  intro vpath
  induction vpath with
  | nil => intro stack; simp [resolveGo, escapes]
  | cons c rest ih =>
    intro stack
    cases c with
    | curDir => simpa [resolveGo, escapes] using ih stack
    | normal s => simpa [resolveGo, escapes] using ih (s :: stack)
    | parentDir =>
      cases stack with
      | nil => simp [resolveGo, escapes]
      | cons t stack2 => simpa [resolveGo, escapes] using ih stack2

/-- Package specification: namespace, name and version, equal iff all
fields are equal. -/
structure PackageSpec where
  space : String
  name : String
  version : String
deriving DecidableEq, Repr

/-- Mirrors FileId of the external typst syntax crate as consumed by
src/world.rs: an optional package specification and a virtual path. The
fake flag marks ids built by FileId::new_fake, such as the static
STDIN_ID (src/world.rs line 32), which never equal a regular id. -/
structure FileId where
  fake : Bool
  pkg : Option PackageSpec
  vpath : List Component
deriving DecidableEq, Repr

/-- Mirrors STDIN_ID (src/world.rs line 32). -/
def STDIN_ID : FileId := ⟨true, none, [Component.normal "<stdin>"]⟩

/-- Package storage: prepare_package returns the prepared package root
directory, downloading on demand, or a download error. -/
structure PackageStorage where
  prepare_package : PackageSpec → Except String (List String)

/-- Mirrors system_path (src/world.rs lines 267 to 284): the root is the
project root, or the prepared package root when the id carries a package
specification; the virtual path is then resolved onto that root and a
failed join denies access. -/
def system_path (project_root : List String) (id : FileId)
    (package_storage : PackageStorage) : Except FileError (List String) :=
  match id.pkg with
  | some spec =>
    match package_storage.prepare_package spec with
    | Except.error e => Except.error (FileError.package e)
    | Except.ok buf =>
      match VirtualPath.resolve buf id.vpath with
      | some p => Except.ok p
      | none => Except.error FileError.accessDenied
  | none =>
    match VirtualPath.resolve project_root id.vpath with
    | some p => Except.ok p
    | none => Except.error FileError.accessDenied

/-- An existing filesystem object: a directory or a file with contents. -/
inductive FsEntry where
  | dir
  | file (contents : List Nat)
deriving DecidableEq, Repr

/-- OS error kinds distinguished by the error mapping: a missing object,
or any other OS-level failure. -/
inductive IoErrorKind where
  | notFound
  | otherKind
deriving DecidableEq, Repr

/-- Snapshot of the filesystem as a function from paths to lookup
outcomes; fs::metadata and fs::read both consult the same snapshot
inside one read_from_disk call. -/
abbrev Filesystem : Type := List String → Except IoErrorKind FsEntry

/-- Modelled from the spec: FileError::from_io of the external typst
crate maps a missing file to NotFound and wraps any other OS-level
failure with the path for diagnostics. -/
def FileError.from_io (e : IoErrorKind) (path : List String) : FileError :=
  match e with
  | IoErrorKind.notFound => FileError.notFound path
  | IoErrorKind.otherKind => FileError.io path

/-- Mirrors read_from_disk (src/world.rs lines 299 to 306): a metadata
failure is mapped by from_io, an existing directory is the distinct
IsDirectory error, and otherwise the file contents are returned. -/
def read_from_disk (fs : Filesystem) (path : List String) :
    Except FileError (List Nat) :=
  match fs path with
  | Except.error e => Except.error (FileError.from_io e path)
  | Except.ok FsEntry.dir => Except.error FileError.isDirectory
  | Except.ok (FsEntry.file contents) => Except.ok contents

/-- Mirrors the free function read (src/world.rs lines 290 to 296),
named readId here because the Lean name read is taken by the monad
reader class: the stdin id reads the standard input buffer, any other id
resolves to a system path and reads from disk. -/
def readId (fs : Filesystem) (stdin : List Nat) (id : FileId)
    (project_root : List String) (package_storage : PackageStorage) :
    Except FileError (List Nat) :=
  if id = STDIN_ID then Except.ok stdin
  else
    match system_path project_root id package_storage with
    | Except.error e => Except.error e
    | Except.ok p => read_from_disk fs p

/-- C5: an identifier whose virtual path escapes its root via
parent-directory traversal resolves to AccessDenied, both for a
non-package identifier relative to the project root and for a package
identifier relative to its prepared package root, and such an identifier
never reads successfully; the check inspects path components only, so
symlink escapes are not covered by it. -/
theorem spec_C5 (project_root : List String) (id : FileId)
    (package_storage : PackageStorage) (hesc : escapes 0 id.vpath = true) :
    (id.pkg = none →
        system_path project_root id package_storage =
          Except.error FileError.accessDenied) ∧
    (∀ spec buf, id.pkg = some spec →
        package_storage.prepare_package spec = Except.ok buf →
        system_path project_root id package_storage =
          Except.error FileError.accessDenied) ∧
    (∀ fs stdin, id.fake = false → id.pkg = none →
        readId fs stdin id project_root package_storage =
          Except.error FileError.accessDenied) := by
  have hres : ∀ root, VirtualPath.resolve root id.vpath = none := by
    intro root
    exact (resolveGo_none_iff root id.vpath []).mpr (by simpa using hesc)
  refine ⟨?_, ?_, ?_⟩
  · intro hpkg
    simp [system_path, hpkg, hres]
  · intro spec buf hpkg hprep
    simp [system_path, hpkg, hprep, hres]
  · intro fs stdin hfake hpkg
    have hne : id ≠ STDIN_ID := by
      intro h
      rw [h] at hfake
      exact absurd hfake (by decide)
    unfold readId
    rw [if_neg hne]
    simp [system_path, hpkg, hres]

/-- Witness for C5 at a concrete input: the traversal ../../etc/passwd
relative to a one-component project root is denied, not read. -/
theorem spec_C5_witness :
    readId (fun _ => Except.ok (FsEntry.file [1])) []
      ⟨false, none,
       [Component.parentDir, Component.parentDir,
        Component.normal "etc", Component.normal "passwd"]⟩
      ["root"] ⟨fun _ => Except.error "offline"⟩ =
      Except.error FileError.accessDenied := by
  exact (spec_C5 ["root"]
    ⟨false, none,
     [Component.parentDir, Component.parentDir,
      Component.normal "etc", Component.normal "passwd"]⟩
    ⟨fun _ => Except.error "offline"⟩ (by decide)).2.2
    (fun _ => Except.ok (FsEntry.file [1])) [] rfl rfl

/-- C6: reading a resolved path yields IsDirectory for an existing
directory, NotFound when nothing exists there, an error carrying the
path for any other OS failure, and the bytes of an existing file. -/
theorem spec_C6 (fs : Filesystem) (path : List String) :
    (fs path = Except.ok FsEntry.dir →
        read_from_disk fs path = Except.error FileError.isDirectory) ∧
    (fs path = Except.error IoErrorKind.notFound →
        read_from_disk fs path = Except.error (FileError.notFound path)) ∧
    (fs path = Except.error IoErrorKind.otherKind →
        read_from_disk fs path = Except.error (FileError.io path)) ∧
    (∀ contents, fs path = Except.ok (FsEntry.file contents) →
        read_from_disk fs path = Except.ok contents) := by
  refine ⟨?_, ?_, ?_, ?_⟩
  · intro h; simp [read_from_disk, h]
  · intro h; simp [read_from_disk, h, FileError.from_io]
  · intro h; simp [read_from_disk, h, FileError.from_io]
  · intro contents h; simp [read_from_disk, h]

/-- Witness for C6 at a concrete filesystem with a directory, a file, a
missing entry and an entry failing with another OS error. -/
theorem spec_C6_witness :
    read_from_disk
        (fun p => if p = ["d"] then Except.ok FsEntry.dir
          else if p = ["f"] then Except.ok (FsEntry.file [9])
          else if p = ["x"] then Except.error IoErrorKind.otherKind
          else Except.error IoErrorKind.notFound) ["d"] =
      Except.error FileError.isDirectory ∧
    read_from_disk
        (fun p => if p = ["d"] then Except.ok FsEntry.dir
          else if p = ["f"] then Except.ok (FsEntry.file [9])
          else if p = ["x"] then Except.error IoErrorKind.otherKind
          else Except.error IoErrorKind.notFound) ["m"] =
      Except.error (FileError.notFound ["m"]) ∧
    read_from_disk
        (fun p => if p = ["d"] then Except.ok FsEntry.dir
          else if p = ["f"] then Except.ok (FsEntry.file [9])
          else if p = ["x"] then Except.error IoErrorKind.otherKind
          else Except.error IoErrorKind.notFound) ["x"] =
      Except.error (FileError.io ["x"]) ∧
    read_from_disk
        (fun p => if p = ["d"] then Except.ok FsEntry.dir
          else if p = ["f"] then Except.ok (FsEntry.file [9])
          else if p = ["x"] then Except.error IoErrorKind.otherKind
          else Except.error IoErrorKind.notFound) ["f"] =
      Except.ok [9] := by
  refine ⟨(spec_C6 _ ["d"]).1 (by decide),
    (spec_C6 _ ["m"]).2.1 (by decide),
    (spec_C6 _ ["x"]).2.2.1 (by decide),
    (spec_C6 _ ["f"]).2.2.2 [9] (by decide)⟩

/-- Mirrors the byte-order-mark strip of decode_utf8 (src/world.rs line
323): strip_prefix removes one leading EF BB BF sequence when present
and otherwise leaves the buffer unchanged. -/
def stripBom (buf : List Nat) : List Nat :=
  match buf with
  | a :: b :: c :: rest =>
    if a = 0xef ∧ b = 0xbb ∧ c = 0xbf then rest else a :: b :: c :: rest
  | short => short

/-- Continuation byte of a multi-byte UTF-8 sequence. -/
def contByte (b : Nat) : Bool := 0x80 ≤ b && b ≤ 0xbf

/-- UTF-8 validity of a byte sequence, following the validation that the
standard library str::from_utf8 performs: continuation bytes in range,
no overlong encodings, no surrogate code points, nothing above
U+10FFFF. -/
def validUtf8 : List Nat → Bool
  | [] => true
  | b :: rest =>
    if b ≤ 0x7f then validUtf8 rest
    else if 0xc2 ≤ b && b ≤ 0xdf then
      match rest with
      | c :: rest2 => contByte c && validUtf8 rest2
      | [] => false
    else if b = 0xe0 then
      match rest with
      | c :: d :: rest2 =>
        (0xa0 ≤ c && c ≤ 0xbf) && contByte d && validUtf8 rest2
      | _ => false
    else if 0xe1 ≤ b && b ≤ 0xec then
      match rest with
      | c :: d :: rest2 => contByte c && contByte d && validUtf8 rest2
      | _ => false
    else if b = 0xed then
      match rest with
      | c :: d :: rest2 =>
        (0x80 ≤ c && c ≤ 0x9f) && contByte d && validUtf8 rest2
      | _ => false
    else if 0xee ≤ b && b ≤ 0xef then
      match rest with
      | c :: d :: rest2 => contByte c && contByte d && validUtf8 rest2
      | _ => false
    else if b = 0xf0 then
      match rest with
      | c :: d :: e :: rest2 =>
        (0x90 ≤ c && c ≤ 0xbf) && contByte d && contByte e && validUtf8 rest2
      | _ => false
    else if 0xf1 ≤ b && b ≤ 0xf3 then
      match rest with
      | c :: d :: e :: rest2 =>
        contByte c && contByte d && contByte e && validUtf8 rest2
      | _ => false
    else if b = 0xf4 then
      match rest with
      | c :: d :: e :: rest2 =>
        (0x80 ≤ c && c ≤ 0x8f) && contByte d && contByte e && validUtf8 rest2
      | _ => false
    else false

/-- Mirrors decode_utf8 (src/world.rs lines 321 to 324): strip one
optional byte-order mark, then decode as UTF-8. On success the Rust
str::from_utf8 returns a view of the very same bytes, so the decoded
text is embedded as the stripped byte sequence itself; an invalid
sequence becomes the distinct InvalidUtf8 error through the
question-mark conversion of Utf8Error into FileError. -/
def decode_utf8 (buf : List Nat) : Except FileError (List Nat) :=
  if validUtf8 (stripBom buf) then Except.ok (stripBom buf)
  else Except.error FileError.invalidUtf8

/-- C7: decoding interprets the bytes after stripping exactly one
optional leading byte-order mark EF BB BF; a valid remainder is returned
as the text verbatim, never replaced or truncated, and an invalid
remainder is the distinct UTF-8 error kind. -/
theorem spec_C7 (buf rest : List Nat) :
    (stripBom (0xef :: 0xbb :: 0xbf :: rest) = rest) ∧
    ((∀ r, buf ≠ 0xef :: 0xbb :: 0xbf :: r) → stripBom buf = buf) ∧
    (validUtf8 (stripBom buf) = true →
        decode_utf8 buf = Except.ok (stripBom buf)) ∧
    (validUtf8 (stripBom buf) = false →
        decode_utf8 buf = Except.error FileError.invalidUtf8) := by
  refine ⟨by simp [stripBom], ?_, ?_, ?_⟩
  · intro hnb
    match buf with
    | [] => rfl
    | [a] => rfl
    | [a, b] => rfl
    | a :: b :: c :: r =>
      by_cases h3 : a = 0xef ∧ b = 0xbb ∧ c = 0xbf
      · exact absurd (by rw [h3.1, h3.2.1, h3.2.2]) (hnb r)
      · simp [stripBom, h3]
  · intro hv; simp [decode_utf8, hv]
  · intro hv; simp [decode_utf8, hv]

/-- Witness for C7 at concrete inputs: a byte-order mark followed by the
two-byte letter e-acute decodes to exactly those bytes, and the lone
byte FF is the UTF-8 error. -/
theorem spec_C7_witness :
    decode_utf8 [0xef, 0xbb, 0xbf, 0x68, 0xc3, 0xa9] =
      Except.ok [0x68, 0xc3, 0xa9] ∧
    decode_utf8 [0xff] = Except.error FileError.invalidUtf8 := by
  refine ⟨(spec_C7 [0xef, 0xbb, 0xbf, 0x68, 0xc3, 0xa9] []).2.2.1 (by decide),
    (spec_C7 [0xff] []).2.2.2 (by decide)⟩

/-- Mirrors the typst Source object as src/world.rs observes it: the
owning file id, the decoded text, and an identity token standing for the
allocation identity of the Rust object (Source::new allocates a fresh
object; replace edits the existing one in place and keeps it). -/
structure Source where
  id : FileId
  ident : Nat
  text : List Nat
deriving DecidableEq, Repr

/-- Fresh construction, mirroring Source::new at src/world.rs line 202;
the identity token of the freshly allocated object is supplied by the
caller of the embedding. -/
def Source.new (id : FileId) (ident : Nat) (text : List Nat) : Source :=
  ⟨id, ident, text⟩

/-- In-place update, mirroring prev.replace(text) at src/world.rs line
199: the text changes, the id and the identity are preserved. -/
def Source.replace (s : Source) (text : List Nat) : Source :=
  { s with text := text }

/-- Derivation closure of the source cell (src/world.rs lines 194 to
204): decode the bytes as UTF-8; when a previous parsed object exists,
update it in place, otherwise construct a fresh Source. The fresh
argument is the allocation identity a fresh construction would get. -/
def sourceReparse (id : FileId) (fresh : Nat) (data : List Nat)
    (prev : Option Source) : Except FileError Source :=
  match decode_utf8 data with
  | Except.error e => Except.error e
  | Except.ok text =>
    match prev with
    | some p => Except.ok (p.replace text)
    | none => Except.ok (Source.new id fresh text)

/-- Mirrors FileSlot (src/world.rs lines 171 to 178): one source cell
and one byte cell per file id. -/
structure FileSlot where
  id : FileId
  source : SlotCell Source
  file : SlotCell (List Nat)
deriving DecidableEq, Repr

/-- Mirrors FileSlot::new (src/world.rs lines 182 to 184). -/
def FileSlot.new (id : FileId) : FileSlot := ⟨id, SlotCell.new, SlotCell.new⟩

/-- Mirrors FileSlot::source (src/world.rs lines 187 to 206): run the
source cell through get_or_init with the read result and the reparse
closure, returning the outcome and the updated slot. -/
def FileSlot.sourceResult (slot : FileSlot)
    (hash : Except FileError (List Nat) → Nat)
    (load : Except FileError (List Nat)) (fresh : Nat) :
    GetResult Source × FileSlot :=
  (slot.source.get_or_init hash load (sourceReparse slot.id fresh),
   { slot with source :=
      (slot.source.get_or_init hash load (sourceReparse slot.id fresh)).cell })

/-- Mirrors FileSlot::file (src/world.rs lines 209 to 214): run the byte
cell through get_or_init with the read result and the byte wrap. -/
def FileSlot.fileResult (slot : FileSlot)
    (hash : Except FileError (List Nat) → Nat)
    (load : Except FileError (List Nat)) :
    GetResult (List Nat) × FileSlot :=
  (slot.file.get_or_init hash load (fun data _ => Except.ok data),
   { slot with file :=
      (slot.file.get_or_init hash load (fun data _ => Except.ok data)).cell })

/-- C4: when a source-cell re-derivation runs because the bytes changed
(flag clear, hash differs) and the bytes decode, a previously parsed
Source is updated in place, preserving its identity token and its file
id while taking the newly decoded text; a fresh Source is constructed
only when no previous parsed object exists. -/
theorem spec_C4 (slot : FileSlot)
    (hash : Except FileError (List Nat) → Nat)
    (data text : List Nat) (fresh : Nat)
    (hacc : slot.source.accessed = false)
    (hfp : hash (Except.ok data) ≠ slot.source.fingerprint)
    (hdec : decode_utf8 data = Except.ok text) :
    (∀ p, slot.source.data = some (Except.ok p) →
        (slot.sourceResult hash (Except.ok data) fresh).1.value =
          Except.ok ⟨p.id, p.ident, text⟩) ∧
    (slot.source.data = none →
        (slot.sourceResult hash (Except.ok data) fresh).1.value =
          Except.ok (Source.new slot.id fresh text)) := by
  have hc := spec_C1 slot.source hash (Except.ok data)
    (sourceReparse slot.id fresh) hacc
  constructor
  · intro p hp
    have h3 := hc.2.2 hfp
    simp only [FileSlot.sourceResult, h3]
    simp [hp, sourceReparse, hdec, Source.replace, Except.bind, Except.toOption]
  · intro hp
    have h2 := hc.2.1 hp
    simp only [FileSlot.sourceResult, h2]
    simp [sourceReparse, hdec, Source.new, Except.bind]

/-- Witness for C4 at concrete inputs: a slot caching a parsed Source
with identity token 42 is updated in place when the bytes change to the
single byte 0x61, and a slot with no previous parse constructs a fresh
Source with the supplied identity 7. -/
theorem spec_C4_witness :
    (FileSlot.sourceResult
        ⟨⟨false, none, [Component.normal "main.typ"]⟩,
         ⟨some (Except.ok ⟨⟨false, none, [Component.normal "main.typ"]⟩, 42, [0x62]⟩),
          hashModel (Except.ok [0x62]), false⟩,
         SlotCell.new⟩
        hashModel (Except.ok [0x61]) 7).1.value =
      Except.ok ⟨⟨false, none, [Component.normal "main.typ"]⟩, 42, [0x61]⟩ ∧
    (FileSlot.sourceResult
        (FileSlot.new ⟨false, none, [Component.normal "main.typ"]⟩)
        hashModel (Except.ok [0x61]) 7).1.value =
      Except.ok (Source.new ⟨false, none, [Component.normal "main.typ"]⟩ 7 [0x61]) := by
  constructor
  · exact (spec_C4
      ⟨⟨false, none, [Component.normal "main.typ"]⟩,
       ⟨some (Except.ok ⟨⟨false, none, [Component.normal "main.typ"]⟩, 42, [0x62]⟩),
        hashModel (Except.ok [0x62]), false⟩,
       SlotCell.new⟩
      hashModel [0x61] [0x61] 7 rfl (by decide) (by decide)).1
      ⟨⟨false, none, [Component.normal "main.typ"]⟩, 42, [0x62]⟩ rfl
  · exact (spec_C4
      (FileSlot.new ⟨false, none, [Component.normal "main.typ"]⟩)
      hashModel [0x61] [0x61] 7 rfl (by decide) (by decide)).2 rfl

/-- Modelled from the external chrono crate as used by
SystemWorld::today: a local datetime is an instant in minutes since the
epoch together with the local offset in minutes; naive_local adds the
offset to the instant and naive_utc does not. -/
structure DateTimeLocal where
  utcMinutes : Int
  offsetMinutes : Int
deriving DecidableEq, Repr

/-- Modelled from the external chrono crate: Duration::try_hours yields
the duration in minutes, or none when the hour count overflows the
millisecond range of a 64-bit duration. -/
def tryHours (h : Int) : Option Int :=
  if h.natAbs ≤ 2562047788015215 then some (h * 60) else none

/-- Civil date from a day number, the standard Gregorian conversion;
this models the Datelike year, month and day accessors of the external
chrono crate on the naive datetime. -/
def civilFromDays (z0 : Int) : Int × Nat × Nat :=
  let z := z0 + 719468
  let era := Int.ediv z 146097
  let doe := (z - era * 146097).toNat
  let yoe := (doe - doe / 1460 + doe / 36524 - doe / 146096) / 365
  let y := (yoe : Int) + era * 400
  let doy := doe - (365 * yoe + yoe / 4 - yoe / 100)
  let mp := (5 * doy + 2) / 153
  let d := doy - (153 * mp + 2) / 5 + 1
  let m := if mp < 10 then mp + 3 else mp - 9
  (if m ≤ 2 then y + 1 else y, m, d)

/-- Mirrors the typst Datetime::from_ymd value as far as src/world.rs
observes it: a year, month and day accepted when in calendar range. -/
structure Datetime where
  year : Int
  month : Nat
  day : Nat
deriving DecidableEq, Repr

/-- Modelled from the external typst crate: Datetime::from_ymd validates
the month and day ranges and otherwise yields none. -/
def Datetime.from_ymd (y : Int) (m d : Nat) : Option Datetime :=
  if 1 ≤ m ∧ m ≤ 12 ∧ 1 ≤ d ∧ d ≤ 31 then some ⟨y, m, d⟩ else none

/-- Date computation of SystemWorld::today (src/world.rs lines 144 to
154) for a fixed captured instant: without an offset the naive local
datetime is used, with an offset the naive UTC datetime shifted by
try_hours, which propagates none on overflow. -/
def todayCompute (now : DateTimeLocal) (offset : Option Int) : Option Datetime :=
  match offset with
  | none =>
    match civilFromDays (Int.ediv (now.utcMinutes + now.offsetMinutes) 1440) with
    | (y, m, d) => Datetime.from_ymd y m d
  | some o =>
    match tryHours o with
    | none => none
    | some dm =>
      match civilFromDays (Int.ediv (now.utcMinutes + dm) 1440) with
      | (y, m, d) => Datetime.from_ymd y m d

/-- Mirrors SystemWorld::today (src/world.rs lines 141 to 154) together
with the now OnceLock (line 52): the stored instant is used when
present, otherwise the current clock value is captured and stored; the
function returns the computed date and the lock state after the call. -/
def SystemWorld.today (stored : Option DateTimeLocal) (clock : DateTimeLocal)
    (offset : Option Int) : Option Datetime × Option DateTimeLocal :=
  match stored with
  | some t => (todayCompute t offset, some t)
  | none => (todayCompute clock offset, some clock)

/-- C8: the instant used by today is captured exactly once, on the first
call, and reused afterwards: a second call with the same offset returns
the identical date and leaves the captured instant untouched, whatever
the wall clock reads at that later moment. -/
theorem spec_C8 (stored : Option DateTimeLocal) (clock1 clock2 : DateTimeLocal)
    (offset : Option Int) :
    (stored = none →
        (SystemWorld.today stored clock1 offset).2 = some clock1) ∧
    (SystemWorld.today (SystemWorld.today stored clock1 offset).2 clock2
        offset).1 = (SystemWorld.today stored clock1 offset).1 ∧
    (SystemWorld.today (SystemWorld.today stored clock1 offset).2 clock2
        offset).2 = (SystemWorld.today stored clock1 offset).2 := by
  cases stored with
  | none => exact ⟨fun _ => rfl, rfl, rfl⟩
  | some t => exact ⟨fun h => Option.noConfusion h, rfl, rfl⟩

/-- Witness for C8 at concrete inputs: a session starting with an empty
lock captures the first clock reading, and a second query with a clock
that has advanced by a day still returns the first date. -/
theorem spec_C8_witness :
    (SystemWorld.today none ⟨0, 540⟩ (some 9)).2 = some ⟨0, 540⟩ ∧
    (SystemWorld.today (SystemWorld.today none ⟨0, 540⟩ (some 9)).2 ⟨2880, 540⟩
        (some 9)).1 = (SystemWorld.today none ⟨0, 540⟩ (some 9)).1 ∧
    (SystemWorld.today (SystemWorld.today none ⟨0, 540⟩ (some 9)).2 ⟨2880, 540⟩
        (some 9)).2 = (SystemWorld.today none ⟨0, 540⟩ (some 9)).2 := by
  refine ⟨(spec_C8 none ⟨0, 540⟩ ⟨2880, 540⟩ (some 9)).1 rfl,
    (spec_C8 none ⟨0, 540⟩ ⟨2880, 540⟩ (some 9)).2.1,
    (spec_C8 none ⟨0, 540⟩ ⟨2880, 540⟩ (some 9)).2.2⟩

/-- Mirrors FontSlot (src/fonts.rs lines 23 to 31), generic over the
decoded font type of the external typst crate: the on-disk path, the
face index within a collection, and the once-cell holding the memoized
decode outcome (none while still unresolved, some none for a decode that
failed, some (some f) for a decoded font). -/
structure FontSlot (F : Type) where
  path : List String
  index : Nat
  font : Option (Option F)
deriving DecidableEq, Repr

/-- Outcome of one FontSlot::get call: the optional font returned, the
slot state after the call, and how many filesystem reads ran. -/
structure FontGetResult (F : Type) where
  value : Option F
  slot : FontSlot F
  reads : Nat
deriving DecidableEq, Repr

/-- Mirrors FontSlot::get (src/fonts.rs lines 191 to 201): an already
resolved once-cell returns its memoized outcome with no I/O; otherwise
the file at the slot path is read (any read failure, a directory
included, collapses to no font through the ok and question-mark chain)
and the decode runs once, with its outcome memoized whatever it is. The
decode function stands for Font::new of the external typst crate. -/
def FontSlot.get {F : Type} (s : FontSlot F) (fs : Filesystem)
    (decode : List Nat → Nat → Option F) : FontGetResult F :=
  match s.font with
  | some r => ⟨r, s, 0⟩
  | none =>
    match fs s.path with
    | Except.ok (FsEntry.file data) =>
      ⟨decode data s.index, { s with font := some (decode data s.index) }, 1⟩
    | _ => ⟨none, { s with font := some none }, 1⟩

/-- Mirrors the embedded-font slot construction in
FontSearcher::add_embedded (src/fonts.rs lines 102 to 106): empty path,
the face index within the embedded buffer, and a once-cell created
already resolved with the decoded font. -/
def embeddedFontSlot {F : Type} (i : Nat) (f : F) : FontSlot F :=
  ⟨[], i, some (some f)⟩

/-- C9: after any FontSlot::get the outcome is memoized, so every later
get returns the identical outcome, the failure case included, with zero
filesystem reads and no state change, under any later filesystem and
decoder; a first get reads at most once; and an embedded slot is created
already resolved, so its every get returns the embedded font and never
performs filesystem I/O. -/
theorem spec_C9 {F : Type} :
    (∀ (s : FontSlot F) (fs1 : Filesystem) (d1 : List Nat → Nat → Option F)
        (fs2 : Filesystem) (d2 : List Nat → Nat → Option F),
      (s.get fs1 d1).slot.get fs2 d2 =
        ⟨(s.get fs1 d1).value, (s.get fs1 d1).slot, 0⟩) ∧
    (∀ (s : FontSlot F) (fs : Filesystem) (d : List Nat → Nat → Option F),
      (s.get fs d).reads ≤ 1) ∧
    (∀ (i : Nat) (f : F) (fs : Filesystem) (d : List Nat → Nat → Option F),
      (embeddedFontSlot i f).get fs d = ⟨some f, embeddedFontSlot i f, 0⟩) := by
  refine ⟨?_, ?_, ?_⟩
  · intro s fs1 d1 fs2 d2
    rcases hfont : s.font with _ | r
    · simp only [FontSlot.get, hfont]
      rcases hfs : fs1 s.path with e | entry
      · simp [FontSlot.get]
      · cases entry <;> simp [FontSlot.get]
    · simp [FontSlot.get, hfont]
  · intro s fs d
    rcases hfont : s.font with _ | r
    · simp only [FontSlot.get, hfont]
      rcases hfs : fs s.path with e | entry
      · simp
      · cases entry <;> simp
    · simp [FontSlot.get, hfont]
  · intro i f fs d
    simp [FontSlot.get, embeddedFontSlot]

/-- Mirrors SystemWorld::font (src/world.rs lines 137 to 139): the font
slot list is indexed without a bounds check, so the outer none of the
result models the panic of the Rust Vec indexing; an in-range slot
always yields some outcome, namely what its get returns. -/
def SystemWorld.font {F : Type} (fonts : List (FontSlot F)) (fs : Filesystem)
    (decode : List Nat → Nat → Option F) (index : Nat) : Option (Option F) :=
  match fonts.get? index with
  | none => none
  | some s => some (s.get fs decode).value

/-- C10: an index at or past the number of font slots makes the adapter
font accessor panic (modelled as the outer none) instead of returning
the no-font answer, while an in-range index never panics: it returns
exactly the slot outcome, and the no-font answer arises for an in-range
slot whose memoized decode failed. -/
theorem spec_C10 {F : Type} (fonts : List (FontSlot F)) (fs : Filesystem)
    (decode : List Nat → Nat → Option F) (index : Nat) :
    (fonts.length ≤ index →
        SystemWorld.font fonts fs decode index = none) ∧
    (∀ h : index < fonts.length,
        SystemWorld.font fonts fs decode index =
          some ((fonts.get ⟨index, h⟩).get fs decode).value) ∧
    (∀ h : index < fonts.length, (fonts.get ⟨index, h⟩).font = some none →
        SystemWorld.font fonts fs decode index = some none) := by
  refine ⟨?_, ?_, ?_⟩
  · intro hle
    have hg : fonts.get? index = none := List.get?_eq_none.mpr hle
    unfold SystemWorld.font
    rw [hg]
  · intro h
    have hg : fonts.get? index = some (fonts.get ⟨index, h⟩) := List.get?_eq_get h
    unfold SystemWorld.font
    rw [hg]
  · intro h hfail
    have hg : fonts.get? index = some (fonts.get ⟨index, h⟩) := List.get?_eq_get h
    unfold SystemWorld.font
    rw [hg]
    simp only [List.get_eq_getElem] at hfail
    simp [FontSlot.get, hfail]

/-- Witness for C10 at concrete inputs: a catalog of one slot whose
decode failed panics at index 1 and returns the no-font answer at
index 0. -/
theorem spec_C10_witness :
    SystemWorld.font [(⟨["f"], 0, some none⟩ : FontSlot Nat)]
        (fun _ => Except.error IoErrorKind.notFound) (fun _ _ => none) 1 =
      none ∧
    SystemWorld.font [(⟨["f"], 0, some none⟩ : FontSlot Nat)]
        (fun _ => Except.error IoErrorKind.notFound) (fun _ _ => none) 0 =
      some none := by
  refine ⟨(spec_C10 [(⟨["f"], 0, some none⟩ : FontSlot Nat)]
      (fun _ => Except.error IoErrorKind.notFound) (fun _ _ => none) 1).1
      (by decide),
    (spec_C10 [(⟨["f"], 0, some none⟩ : FontSlot Nat)]
      (fun _ => Except.error IoErrorKind.notFound) (fun _ _ => none) 0).2.2
      (by decide) rfl⟩
